import Mathlib

/-!
Verification of the Antigravity chat bridge server (src/src/server.ts).

The file shallowly embeds the pure logic of the server:
the discovery scan, the CDP call correlator, the capture and injection
loops over execution contexts, the markup fingerprint and change
detector, and the token checks on the HTTP and WebSocket surfaces.
Stateful TypeScript code becomes explicit state passing; fallible remote
calls become per-context outcome values; JavaScript 32-bit integer
arithmetic is modelled with Int and explicit reduction into
[-2^31, 2^31).
-/

/-! ## Basic string helpers -/

/-- Decides whether `pat` occurs as a contiguous substring of `l`
(the JavaScript `String.prototype.includes`). -/
def listIncludes : List Char → List Char → Bool
  | [], pat => pat.isEmpty
  | l@(_ :: rest), pat => pat.isPrefixOf l || listIncludes rest pat

/-- JavaScript `s.includes(pat)` on Lean strings. -/
def strIncludes (s pat : String) : Bool := listIncludes s.data pat.data

/-- JavaScript truthiness of a `string | undefined | null` value:
falsy exactly when the value is absent or the empty string. -/
def strTruthy : Option String → Bool
  | none => false
  | some s => !s.isEmpty

/-! ## JSON string serialization (server.ts line 351, `JSON.stringify(text)`)

`injectMessage` embeds the user text into the evaluated routine as
`JSON.stringify(text)`.  We model the ECMAScript `QuoteJSONString`
operation on Unicode scalar values: quote and backslash get a backslash
escape, the named control escapes `\b \t \n \f \r` are used where they
exist, all other control characters become `\u00XX`, and every other
character is emitted verbatim. -/

/-- Lowercase hex digit, as produced by ECMAScript `UnicodeEscape`. -/
def hexDigitChar (n : Nat) : Char :=
  if n < 10 then Char.ofNat (48 + n) else Char.ofNat (87 + n)

/-- Value of a hex digit character (either case), `none` on non-digits. -/
def hexVal (c : Char) : Option Nat :=
  if 48 ≤ c.toNat ∧ c.toNat ≤ 57 then some (c.toNat - 48)
  else if 97 ≤ c.toNat ∧ c.toNat ≤ 102 then some (c.toNat - 87)
  else if 65 ≤ c.toNat ∧ c.toNat ≤ 70 then some (c.toNat - 55)
  else none

/-- The escape sequence `JSON.stringify` produces for one character. -/
def jsonEscapeChar (c : Char) : List Char :=
  if c = '"' then ['\\', '"']
  else if c = '\\' then ['\\', '\\']
  else if c = Char.ofNat 8 then ['\\', 'b']
  else if c = Char.ofNat 9 then ['\\', 't']
  else if c = Char.ofNat 10 then ['\\', 'n']
  else if c = Char.ofNat 12 then ['\\', 'f']
  else if c = Char.ofNat 13 then ['\\', 'r']
  else if c.toNat < 32 then
    ['\\', 'u', '0', '0', hexDigitChar (c.toNat / 16), hexDigitChar (c.toNat % 16)]
  else [c]

/-- `JSON.stringify` of a string: the escaped body wrapped in double quotes. -/
def jsonQuote (s : List Char) : List Char :=
  '"' :: s.flatMap jsonEscapeChar ++ ['"']

/-! ## A JavaScript string-literal reader

Used to analyse the parse structure of the routine `injectMessage`
builds.  `parseStringBody` consumes the body of a double-quoted
JavaScript string literal up to and including its closing quote,
returning the denoted character sequence and the unconsumed remainder.
It understands the escapes `JSON.stringify` can emit plus the remaining
single-character JSON/JS escapes, and rejects raw line terminators,
which are illegal inside a JavaScript string literal. -/

/-- Single-character escapes of a JS string literal. -/
def escDecode (e : Char) : Option Char :=
  if e = '"' then some '"'
  else if e = '\\' then some '\\'
  else if e = '/' then some '/'
  else if e = 'b' then some (Char.ofNat 8)
  else if e = 't' then some (Char.ofNat 9)
  else if e = 'n' then some (Char.ofNat 10)
  else if e = 'v' then some (Char.ofNat 11)
  else if e = 'f' then some (Char.ofNat 12)
  else if e = 'r' then some (Char.ofNat 13)
  else none

/-- Reads the body of a JS string literal (the opening quote already
consumed); returns the decoded text and the input after the closing
quote. -/
def parseStringBody : List Char → Option (List Char × List Char)
  | [] => none
  | c :: rest =>
    if c = '"' then some ([], rest)
    else if c = '\\' then
      match rest with
      | [] => none
      | 'u' :: h1 :: h2 :: h3 :: h4 :: rest4 =>
        match hexVal h1, hexVal h2, hexVal h3, hexVal h4 with
        | some a, some b, some c2, some d =>
          let n := 4096 * a + 256 * b + 16 * c2 + d
          if n < 55296 then
            match parseStringBody rest4 with
            | some (s, r) => some (Char.ofNat n :: s, r)
            | none => none
          else none
        | _, _, _, _ => none
      | e :: rest2 =>
        match escDecode e with
        | some ch =>
          match parseStringBody rest2 with
          | some (s, r) => some (ch :: s, r)
          | none => none
        | none => none
    else if c = Char.ofNat 10 ∨ c = Char.ofNat 13 then none
    else
      match parseStringBody rest with
      | some (s, r) => some (c :: s, r)
      | none => none

/-- Reads a complete double-quoted JS string literal. -/
def parseStringLit : List Char → Option (List Char × List Char)
  | '"' :: rest => parseStringBody rest
  | _ => none

/-- Consumes an exact expected text from the front of the input. -/
def dropExact : List Char → List Char → Option (List Char)
  | [], l => some l
  | _ :: _, [] => none
  | p :: ps, c :: cs => if p = c then dropExact ps cs else none

/-! ## The injection routine template (server.ts lines 353-385)

The template literal `EXPRESSION` of `injectMessage`, split at its four
`${safeText}` interpolation sites.  Braces are written `\x7b`/`\x7d` and
single quotes `\x27`. -/

/-- Template text before the first `${safeText}` site. -/
def exprPart0 : String :=
  "(async () => \x7b\n" ++
  "        // Find visible editor (Antigravity supports message queuing even during generation)\n" ++
  "        const editors = [...document.querySelectorAll(\x27#cascade [data-lexical-editor=\"true\"][contenteditable=\"true\"][role=\"textbox\"]\x27)]\n" ++
  "            .filter(el => el.offsetParent !== null);\n" ++
  "        const editor = editors.at(-1);\n" ++
  "        if (!editor) return \x7b ok:false, reason:\"editor_not_found\" \x7d;\n" ++
  "\n" ++
  "        editor.focus();\n" ++
  "        document.execCommand?.(\"selectAll\", false, null);\n" ++
  "        document.execCommand?.(\"delete\", false, null);\n" ++
  "\n" ++
  "        let inserted = false;\n" ++
  "        // Use safeText directly - it already contains quotes\n" ++
  "        try \x7b inserted = !!document.execCommand?.(\"insertText\", false, "

/-- Template text between the first and second `${safeText}` sites. -/
def exprPart1 : String :=
  "); \x7d catch \x7b\x7d\n" ++
  "        if (!inserted) \x7b\n" ++
  "            editor.textContent = "

/-- Template text between the second and third `${safeText}` sites. -/
def exprPart2 : String :=
  ";\n" ++
  "            editor.dispatchEvent(new InputEvent(\"beforeinput\", \x7b bubbles:true, inputType:\"insertText\", data:"

/-- Template text between the third and fourth `${safeText}` sites. -/
def exprPart3 : String :=
  " \x7d));\n" ++
  "            editor.dispatchEvent(new InputEvent(\"input\", \x7b bubbles:true, inputType:\"insertText\", data:"

/-- Template text after the fourth `${safeText}` site. -/
def exprPart4 : String :=
  " \x7d));\n" ++
  "        \x7d\n" ++
  "\n" ++
  "        await new Promise(r => requestAnimationFrame(() => requestAnimationFrame(r)));\n" ++
  "\n" ++
  "        const submit = document.querySelector(\"svg.lucide-arrow-right\")?.closest(\"button\");\n" ++
  "        if (submit && !submit.disabled) \x7b\n" ++
  "            submit.click();\n" ++
  "            return \x7b ok:true, method:\"click_submit\" \x7d;\n" ++
  "        \x7d\n" ++
  "\n" ++
  "        editor.dispatchEvent(new KeyboardEvent(\"keydown\", \x7b bubbles:true, key:\"Enter\", code:\"Enter\" \x7d));\n" ++
  "        editor.dispatchEvent(new KeyboardEvent(\"keyup\", \x7b bubbles:true, key:\"Enter\", code:\"Enter\" \x7d));\n" ++
  "        \n" ++
  "        return \x7b ok:true, method:\"enter_keypress\" \x7d;\n" ++
  "    \x7d)()"

/-- The action routine `injectMessage` builds for a given input text:
the fixed template with `JSON.stringify(text)` substituted at the four
interpolation sites (server.ts lines 351-385). -/
def buildInjectExpression (text : List Char) : List Char :=
  exprPart0.data ++ jsonQuote text ++
  (exprPart1.data ++ jsonQuote text ++
  (exprPart2.data ++ jsonQuote text ++
  (exprPart3.data ++ jsonQuote text ++ exprPart4.data)))

/-- Parses a constructed routine back into its four embedded string
literals: the fixed skeleton is consumed verbatim and each literal is
read by the JS string-literal reader.  Succeeds exactly when the
routine has the template's parse structure. -/
def parseInjectRoutine (l : List Char) :
    Option (List Char × List Char × List Char × List Char) := do
  let r0 ← dropExact exprPart0.data l
  let (t1, r1) ← parseStringLit r0
  let r2 ← dropExact exprPart1.data r1
  let (t2, r3) ← parseStringLit r2
  let r4 ← dropExact exprPart2.data r3
  let (t3, r5) ← parseStringLit r4
  let r6 ← dropExact exprPart3.data r5
  let (t4, r7) ← parseStringLit r6
  let r8 ← dropExact exprPart4.data r7
  if r8 = [] then some (t1, t2, t3, t4) else none

/-! ## Endpoint discovery (server.ts lines 12, 101-120) -/

/-- Candidate debugging ports (server.ts line 12). -/
def PORTS : List Nat := [9000, 9001, 9002, 9003]

/-- A chosen endpoint: port and control-channel address. -/
structure CDPInfo where
  port : Nat
  url : String
deriving DecidableEq

/-- One target descriptor from a port's `/json/list` metadata listing. -/
structure CDPTarget where
  url : Option String
  title : Option String
  webSocketDebuggerUrl : Option String
deriving DecidableEq

/-- Outcome of probing one candidate port: the HTTP fetch either fails
(connection error, timeout, or unparsable body — all caught) or yields
a listing of targets. -/
inductive ProbeOutcome where
  | failure
  | listing (targets : List CDPTarget)
deriving DecidableEq

/-- The per-target predicate of server.ts line 107: the url contains
`workbench.html`, or the title is truthy and contains `workbench`. -/
def targetMatches (t : CDPTarget) : Bool :=
  (match t.url with
   | some u => strIncludes u "workbench.html"
   | none => false) ||
  (match t.title with
   | some ti => (!ti.isEmpty) && strIncludes ti "workbench"
   | none => false)

/-- One discovery probe (the body of the `PORTS.map` closure,
server.ts lines 104-113): find the first matching target in the
listing; succeed only if it exposes a truthy `webSocketDebuggerUrl`. -/
def probePort (port : Nat) (o : ProbeOutcome) : Option CDPInfo :=
  match o with
  | .failure => none
  | .listing targets =>
    match targets.find? targetMatches with
    | some t =>
      match t.webSocketDebuggerUrl with
      | some u => if !u.isEmpty then some ⟨port, u⟩ else none
      | none => none
    | none => none

/-- `discoverCDP` (server.ts lines 102-120): all probes run via
`Promise.all`, which preserves candidate order and waits for every
probe; `results.find` then takes the first success in candidate order.
The probes' completion times therefore play no role in the result. -/
def discoverCDPModel (probe : Nat → ProbeOutcome) : Except String CDPInfo :=
  match (PORTS.map fun p => probePort p (probe p)).findSome? id with
  | some info => .ok info
  | none => .error "CDP not found. Is Antigravity started with --remote-debugging-port=9000?"

/-- Claim-side definition, following the spec's words: the winner is the
first successful probe to complete, i.e. the success with the smallest
completion latency. -/
def firstByCompletion (probe : Nat → ProbeOutcome) (latency : Nat → Nat) :
    Option CDPInfo :=
  ((PORTS.filterMap fun p =>
      (probePort p (probe p)).map fun i => (latency p, i)).foldl
    (fun acc x =>
      match acc with
      | none => some x
      | some y => if x.1 < y.1 then some x else some y) none).map Prod.snd

/-! ## Snapshots, fingerprint, change detector (server.ts lines 55-80, 417-465) -/

/-- The `Snapshot` interface (server.ts lines 55-68). -/
structure Snapshot where
  html : String
  css : String
  backgroundColor : String
  color : String
  fontFamily : String
  error : Option String := none
  themeClass : Option String := none
  themeAttr : Option String := none
  colorScheme : Option String := none
  bodyBg : Option String := none
  bodyColor : Option String := none
deriving DecidableEq

/-- Reduction of an integer into the signed 32-bit range
[-2^31, 2^31), the effect of JavaScript's `ToInt32` (applied by `<<`
and by `&`). -/
def int32 (x : Int) : Int := (x + 2147483648) % 4294967296 - 2147483648

/-- One step of `hashString`'s loop (server.ts lines 421-423):
`hash = ((hash << 5) - hash) + char; hash = hash & hash`.  The shift
wraps to 32 bits; the subtraction and addition are exact in doubles at
these magnitudes; `hash & hash` applies `ToInt32` to the sum. -/
def hashStep (h : Int) (c : Nat) : Int := int32 (int32 (h * 32) - h + c)

/-- UTF-16 code units of one character (`charCodeAt` iterates code
units; astral characters contribute a surrogate pair). -/
def utf16Char (c : Char) : List Nat :=
  if c.toNat < 65536 then [c.toNat]
  else [55296 + (c.toNat - 65536) / 1024, 56320 + (c.toNat - 65536) % 1024]

/-- UTF-16 code units of a string. -/
def utf16Codes (s : String) : List Nat := s.data.flatMap utf16Char

/-- The integer value accumulated by `hashString`'s loop. -/
def hashInt (codes : List Nat) : Int := codes.foldl hashStep 0

/-- Analysis helper: the hash recurrence viewed in `ZMod 2^32`, where
`hashStep` is exactly `h * 31 + c`. -/
def polyStep (a : ZMod 4294967296) (c : Nat) : ZMod 4294967296 := 31 * a + c

/-- Digit characters of `Number.prototype.toString(36)`: `0`-`9` then
`a`-`z`. -/
def digitChar36 (n : Nat) : Char :=
  if n < 10 then Char.ofNat (48 + n) else Char.ofNat (87 + n)

/-- Base-36 digits of a natural number, most significant first. -/
def toDigits36 (n : Nat) : List Char :=
  if _h : n < 36 then [digitChar36 n]
  else toDigits36 (n / 36) ++ [digitChar36 (n % 36)]
decreasing_by exact Nat.div_lt_self (by omega) (by omega)

/-- Numeric value of a base-36 digit character. -/
def digitVal36 (c : Char) : Nat :=
  if c.toNat < 58 then c.toNat - 48 else c.toNat - 87

/-- Decodes a base-36 digit list back to a natural number. -/
def ofDigits36 (l : List Char) : Nat :=
  l.foldl (fun a c => 36 * a + digitVal36 c) 0

/-- JavaScript `i.toString(36)` on a (signed) integer. -/
def toBase36 (i : Int) : List Char :=
  if i < 0 then '-' :: toDigits36 i.natAbs else toDigits36 i.toNat

/-- `hashString` (server.ts lines 418-426): the 31-polynomial 32-bit
hash of the string's UTF-16 code units, rendered in base 36. -/
def hashString (s : String) : String :=
  String.mk (toBase36 (hashInt (utf16Codes s)))

/-- The shared mutable state `lastSnapshot` / `lastSnapshotHash`
(server.ts lines 78-79). -/
structure ServerState where
  lastSnapshot : Option Snapshot := none
  lastSnapshotHash : Option String := none
deriving DecidableEq

/-- Result of one polling cycle: the new shared state, the snapshots
broadcast to subscribers during the cycle, and `updateSnapshot`'s
boolean return value. -/
structure CycleResult where
  state : ServerState
  broadcasts : List Snapshot
  changed : Bool
deriving DecidableEq

/-- The change detector core of `updateSnapshot` (server.ts lines
450-459), as a function of the current state and the capture's result:
an absent or error-flagged (truthy `error`) capture does nothing;
otherwise the markup's fingerprint is compared with the stored one, and
on a difference the snapshot and fingerprint are stored and the
snapshot broadcast exactly once. -/
def updateSnapshotModel (st : ServerState) (captured : Option Snapshot) : CycleResult :=
  match captured with
  | some snapshot =>
    if strTruthy snapshot.error then ⟨st, [], false⟩
    else
      let hash := hashString snapshot.html
      if some hash ≠ st.lastSnapshotHash then ⟨⟨some snapshot, some hash⟩, [snapshot], true⟩
      else ⟨st, [], false⟩
  | none => ⟨st, [], false⟩

/-- Two consecutive polling cycles with accepted captures `s1` then
`s2`: the result of the second cycle. -/
def secondCycle (st : ServerState) (s1 s2 : Snapshot) : CycleResult :=
  updateSnapshotModel (updateSnapshotModel st (some s1)).state (some s2)

/-! ## Capture engine (server.ts lines 325-346) -/

/-- Outcome of one `Runtime.evaluate` call against a context, as seen by
the capture loop: the call throws (rejected promise), or it returns
with `result.result?.value` either absent or an object. -/
inductive EvalOutcome where
  | throws
  | value (v : Option Snapshot)
deriving DecidableEq

/-- Post-processing applied to an accepted snapshot (server.ts lines
337-339): `convertVsCodeIcons` rewrites `vscode-file://` references in
the html and css fields.  Its output depends on the local filesystem,
so it is a parameter of the model. -/
def convertFields (convert : String → String) (s : Snapshot) : Snapshot :=
  { s with html := convert s.html, css := convert s.css }

/-- The capture loop (server.ts lines 325-345): iterate contexts in
registry order; skip a context whose call throws, returns no value, or
returns a snapshot with truthy `error`; on the first acceptable result,
rewrite its resource references and return it; `none` when all
contexts are exhausted. -/
def captureSnapshotModel (convert : String → String) : List EvalOutcome → Option Snapshot
  | [] => none
  | .throws :: rest => captureSnapshotModel convert rest
  | .value none :: rest => captureSnapshotModel convert rest
  | .value (some s) :: rest =>
    if strTruthy s.error then captureSnapshotModel convert rest
    else some (convertFields convert s)

/-- Claim-side definition: the first context outcome that is an object
whose `error` field is not truthy. -/
def firstAcceptedSnapshot : List EvalOutcome → Option Snapshot :=
  List.findSome? fun o =>
    match o with
    | .value (some s) => if strTruthy s.error then none else some s
    | _ => none

/-- Outcomes the capture loop skips: a throw, an absent value, or an
error-flagged (truthy `error`) snapshot. -/
def skipOutcome (o : EvalOutcome) : Prop :=
  o = .throws ∨ o = .value none ∨ ∃ s, o = .value (some s) ∧ strTruthy s.error = true

/-! ## Injection engine result handling (server.ts lines 70-74, 387-415) -/

/-- The `InjectResult` interface (server.ts lines 70-74). -/
structure InjectResult where
  ok : Bool
  method : Option String := none
  reason : Option String := none
deriving DecidableEq

/-- Outcome of one `Runtime.evaluate` call in the injection loop:
throws, or returns with `result.result?.value` absent or an
`InjectResult` object. -/
inductive InjOutcome where
  | throws
  | value (v : Option InjectResult)
deriving DecidableEq

/-- The initial `lastResult` value (server.ts line 387). -/
def defaultInjectResult : InjectResult := ⟨false, none, some "no_context"⟩

/-- The per-context loop of `injectMessage` (server.ts lines 391-414)
with the running `lastResult` accumulator: return the first `ok`
result immediately; remember the last observed non-`ok` result; ignore
throws and absent values. -/
def injectLoopModel : InjectResult → List InjOutcome → InjectResult
  | last, [] => last
  | last, .throws :: rest => injectLoopModel last rest
  | last, .value none :: rest => injectLoopModel last rest
  | _last, .value (some r) :: rest =>
    if r.ok then r else injectLoopModel r rest

/-- `injectMessage`'s result for a sequence of per-context outcomes. -/
def injectMessageModel (outs : List InjOutcome) : InjectResult :=
  injectLoopModel defaultInjectResult outs

/-- Claim-side definition: the first observed result with `ok: true`. -/
def firstOkInject : List InjOutcome → Option InjectResult :=
  List.findSome? fun o =>
    match o with
    | .value (some r) => if r.ok then some r else none
    | _ => none

/-- Claim-side definition: the last observed result object. -/
def lastObservedInject (outs : List InjOutcome) : Option InjectResult :=
  outs.reverse.findSome? fun o =>
    match o with
    | .value (some r) => some r
    | _ => none

/-- Claim-side definition following the spec's words: first success if
any, else the last observed non-success result, else the default
no-context result. -/
def specInjectResult (outs : List InjOutcome) : InjectResult :=
  match firstOkInject outs with
  | some r => r
  | none => (lastObservedInject outs).getD defaultInjectResult

/-! ## Call correlator (server.ts lines 130-154) -/

/-- The innermost `result` object of an incoming response frame. -/
structure InnerResult where
  value : Option Nat
deriving DecidableEq

/-- The `result` field of an incoming response frame
(`{ result?: { value?: unknown } }`; the opaque payload is stood in for
by a number). -/
structure FrameResult where
  result : Option InnerResult
deriving DecidableEq

/-- An incoming frame as read by a call's message handler (server.ts
line 134): `{ id?; error?; result? }`. -/
structure CDPFrame where
  id : Option Nat
  error : Option String
  result : Option FrameResult
deriving DecidableEq

/-- A pending call being settled: rejected with the frame's error, or
resolved with `{ result: data.result?.result }` (server.ts lines
137-139). -/
inductive CorrEvent where
  | resolved (callId : Nat) (res : Option InnerResult)
  | rejected (callId : Nat) (err : String)
deriving DecidableEq

/-- The call id an event settles. -/
def CorrEvent.callId : CorrEvent → Nat
  | .resolved i _ => i
  | .rejected i _ => i

/-- The settlement a frame produces for the pending call with its id. -/
def frameEvent (i : Nat) (f : CDPFrame) : CorrEvent :=
  match f.error with
  | some e => .rejected i e
  | none => .resolved i (f.result.bind FrameResult.result)

/-- Correlator state: the id counter (starts at 1, server.ts line 130)
and the ids with a live message handler. -/
structure CorrState where
  idCounter : Nat
  pending : List Nat
deriving DecidableEq

/-- Correlator state right after `connectCDP` sets up. -/
def initCorrState : CorrState := ⟨1, []⟩

/-- One correlator stimulus: a `call` dispatch, or an incoming frame. -/
inductive CorrOp where
  | call
  | frame (f : CDPFrame)

/-- One correlator step (server.ts lines 131-144): `call` allocates the
next id and installs a handler; a frame whose id matches a pending call
removes that handler and settles the call; any other frame settles
nothing and changes nothing. -/
def corrStep (st : CorrState) (op : CorrOp) : CorrState × List CorrEvent :=
  match op with
  | .call => (⟨st.idCounter + 1, st.pending ++ [st.idCounter]⟩, [])
  | .frame f =>
    match f.id with
    | some i =>
      if i ∈ st.pending then (⟨st.idCounter, st.pending.erase i⟩, [frameEvent i f])
      else (st, [])
    | none => (st, [])

/-- Runs a sequence of correlator stimuli, collecting all settlements. -/
def corrRun : CorrState → List CorrOp → CorrState × List CorrEvent
  | st, [] => (st, [])
  | st, op :: ops =>
    ((corrRun (corrStep st op).1 ops).1,
      (corrStep st op).2 ++ (corrRun (corrStep st op).1 ops).2)

/-- Correlator invariant: pending ids are distinct and below the
counter. -/
def corrInv (st : CorrState) : Prop :=
  st.pending.Nodup ∧ ∀ i ∈ st.pending, i < st.idCounter

/-! ## Context registry (server.ts lines 34-38, 146-154) -/

/-- The `CDPContext` interface (server.ts lines 34-38). -/
structure CDPContext where
  id : Nat
  origin : Option String := none
  name : Option String := none
deriving DecidableEq

/-- The `params` object of a context-creation event. -/
structure ContextEventParams where
  context : CDPContext
deriving DecidableEq

/-- An incoming frame as read by the connection's event handler
(server.ts lines 147-154): unparsable JSON (ignored via catch), or a
parsed object with optional `method` and `params`. -/
inductive WsIncoming where
  | malformed
  | message (method : Option String) (params : Option ContextEventParams)
deriving DecidableEq

/-- The event handler body (server.ts lines 148-153): on
`Runtime.executionContextCreated` with truthy params, push the context
onto the registry; otherwise leave it unchanged. -/
def handleContextEvent (contexts : List CDPContext) (m : WsIncoming) : List CDPContext :=
  match m with
  | .malformed => contexts
  | .message method params =>
    if method = some "Runtime.executionContextCreated" then
      match params with
      | some p => contexts ++ [p.context]
      | none => contexts
    else contexts

/-- Registry contents after processing a sequence of incoming frames. -/
def processIncoming (contexts : List CDPContext) (msgs : List WsIncoming) : List CDPContext :=
  msgs.foldl handleContextEvent contexts

/-- The contexts announced by a frame sequence, in arrival order. -/
def createdContexts (msgs : List WsIncoming) : List CDPContext :=
  msgs.filterMap fun m =>
    match m with
    | .message method (some p) =>
      if method = some "Runtime.executionContextCreated" then some p.context else none
    | _ => none

/-! ## HTTP surface and access control (server.ts lines 500-561) -/

/-- An HTTP request as seen by the auth middleware: path, the
`authorization` header, and the `token` query parameter. -/
structure HttpRequest where
  path : String
  authorization : Option String
  queryToken : Option String
deriving DecidableEq

/-- Responses the modelled endpoints produce. -/
inductive HttpResponse where
  | unauthorized
  | snapshotUnavailable
  | snapshotBody (s : Snapshot)
  | badRequest (msg : String)
  | cdpUnavailable
  | sendSuccess (method : Option String)
  | sendFailure (reason : Option String)
  | notFound
deriving DecidableEq

/-- The static-asset bypass of the auth middleware (server.ts line
501): `/`, `/index.html`, or a path matching `\.(js|css|ico|png)$`. -/
def staticBypass (p : String) : Bool :=
  p = "/" || p = "/index.html" ||
  ".js".data.isSuffixOf p.data || ".css".data.isSuffixOf p.data ||
  ".ico".data.isSuffixOf p.data || ".png".data.isSuffixOf p.data

/-- The auth middleware (server.ts lines 500-516): `none` means the
request proceeds to the handlers; `some .unauthorized` is the 401
rejection sent before any handler logic. -/
def authMiddleware (token : String) (r : HttpRequest) : Option HttpResponse :=
  if staticBypass r.path then none
  else if r.authorization = some ("Bearer " ++ token) then none
  else if r.queryToken = some token then none
  else some .unauthorized

/-- The `GET /snapshot` handler (server.ts lines 525-530). -/
def snapshotRoute (st : ServerState) : HttpResponse :=
  match st.lastSnapshot with
  | none => .snapshotUnavailable
  | some s => .snapshotBody s

/-- The `POST /send` handler (server.ts lines 533-551): a falsy
`message` is rejected with 400 before anything else; without a CDP
connection the response is 503; otherwise `injectMessage` runs and its
result is reported. -/
def sendRoute (cdpConnected : Bool) (injOuts : List InjOutcome)
    (message : Option String) : HttpResponse :=
  if !strTruthy message then .badRequest "Message required"
  else if !cdpConnected then .cdpUnavailable
  else
    let result := injectMessageModel injOuts
    if result.ok then .sendSuccess result.method else .sendFailure result.reason

/-- The request pipeline for the API routes: auth middleware first,
then routing (server.ts lines 500-551). -/
def handleRequest (token : String) (st : ServerState) (cdpConnected : Bool)
    (injOuts : List InjOutcome) (r : HttpRequest) (body : Option String) : HttpResponse :=
  match authMiddleware token r with
  | some resp => resp
  | none =>
    if r.path = "/snapshot" then snapshotRoute st
    else if r.path = "/send" then sendRoute cdpConnected injOuts body
    else .notFound

/-- Outcome of a WebSocket subscription attempt. -/
inductive WsOutcome where
  | closed (code : Nat) (reason : String)
  | accepted (sent : List Snapshot)
deriving DecidableEq

/-- Snapshots replayed to a freshly accepted subscriber (server.ts
lines 567-573): the cached snapshot if one exists. -/
def wsReplay (st : ServerState) : List Snapshot :=
  match st.lastSnapshot with
  | some s => [s]
  | none => []

/-- The WebSocket connection handler (server.ts lines 554-578): a
`token` query parameter different from the access token closes the
connection with status 1008 and nothing is ever sent; otherwise the
cached snapshot is replayed immediately. -/
def wsConnectionModel (token : String) (st : ServerState)
    (queryToken : Option String) : WsOutcome :=
  if ¬(queryToken = some token) then .closed 1008 "Unauthorized"
  else .accepted (wsReplay st)

/-! ## Concrete data used by counterexamples and scenario runs -/

/-- A snapshot whose `error` field is present but empty. -/
def emptyErrorSnap : Snapshot :=
  { html := "x", css := "", backgroundColor := "", color := "", fontFamily := "",
    error := some "" }

/-- A plain valid snapshot. -/
def validSnap : Snapshot :=
  { html := "<div id=\"cascade\"></div>", css := "body", backgroundColor := "rgb(0, 0, 0)",
    color := "rgb(255, 255, 255)", fontFamily := "monospace" }

/-- A snapshot carrying `error: "x"`. -/
def errXSnap : Snapshot :=
  { html := "", css := "", backgroundColor := "", color := "", fontFamily := "",
    error := some "x" }

/-- Markup consisting of the single character U+10400. -/
def collisionHtml1 : String := ⟨[Char.ofNat 66560]⟩

/-- Markup consisting of the single character U+1001F; its UTF-16
surrogate pair hashes to the same 32-bit value as U+10400's. -/
def collisionHtml2 : String := ⟨[Char.ofNat 65567]⟩

/-- Snapshot with markup `collisionHtml1`. -/
def collisionSnap1 : Snapshot :=
  { html := collisionHtml1, css := "", backgroundColor := "", color := "",
    fontFamily := "" }

/-- Snapshot with markup `collisionHtml2`. -/
def collisionSnap2 : Snapshot :=
  { html := collisionHtml2, css := "", backgroundColor := "", color := "",
    fontFamily := "" }

/-- A target listing entry matching the workbench pattern, for port
9000's probe in the discovery counterexample. -/
def targetA : CDPTarget :=
  ⟨some "vscode-file://vscode-app/workbench.html", none, some "ws://127.0.0.1:9000/devtools/page/A"⟩

/-- A matching target for port 9001's probe. -/
def targetB : CDPTarget :=
  ⟨some "vscode-file://vscode-app/workbench.html", none, some "ws://127.0.0.1:9001/devtools/page/B"⟩

/-- Probe outcomes where ports 9000 and 9001 both succeed. -/
def twoSuccessProbe (p : Nat) : ProbeOutcome :=
  if p = 9000 then .listing [targetA]
  else if p = 9001 then .listing [targetB]
  else .failure

/-- Completion latencies where port 9001's probe finishes first. -/
def slowFirstLatency (p : Nat) : Nat :=
  if p = 9000 then 100 else 1

/-- The duplicated context-created event of the registry
counterexample. -/
def dupContextMsg : WsIncoming :=
  .message (some "Runtime.executionContextCreated") (some ⟨⟨1, none, none⟩⟩)

/-! # Shared lemmas -/

theorem charOfNat_toNat (c : Char) : Char.ofNat c.toNat = c := by
  have h : c.toNat.isValidChar := c.valid
  apply Char.ext
  simp only [Char.ofNat, h, dif_pos, Char.ofNatAux]
  apply UInt32.ext
  simp [UInt32.toNat, Char.toNat, BitVec.ofNatLt]

theorem hexVal_hexDigitChar : ∀ n < 16, hexVal (hexDigitChar n) = some n := by decide

theorem digitVal36_digitChar36 : ∀ n < 36, digitVal36 (digitChar36 n) = n := by decide

/-! # C1: the injection routine embeds the text purely as data -/

theorem dropExact_append (p r : List Char) : dropExact p (p ++ r) = some r := by
  induction p with
  | nil => rfl
  | cons c cs ih => simp [dropExact, ih]

theorem parseBody_escape (s rest : List Char) :
    parseStringBody (s.flatMap jsonEscapeChar ++ '"' :: rest) = some (s, rest) := by
  induction s with
  | nil =>
    simp only [List.flatMap_nil, List.nil_append]
    rw [parseStringBody.eq_def]
    simp
  | cons c cs ih =>
    rw [List.flatMap_cons, List.append_assoc]
    by_cases h1 : c = '"'
    · subst h1
      rw [show jsonEscapeChar '"' = ['\\', '"'] from rfl]
      simp only [List.cons_append, List.nil_append]
      rw [parseStringBody.eq_def]
      simp [escDecode, ih]
    by_cases h2 : c = '\\'
    · subst h2
      rw [show jsonEscapeChar '\\' = ['\\', '\\'] from rfl]
      simp only [List.cons_append, List.nil_append]
      rw [parseStringBody.eq_def]
      simp [escDecode, ih]
    by_cases h3 : c = Char.ofNat 8
    · subst h3
      rw [show jsonEscapeChar (Char.ofNat 8) = ['\\', 'b'] from rfl]
      simp only [List.cons_append, List.nil_append]
      rw [parseStringBody.eq_def]
      simp [escDecode, ih]
    by_cases h4 : c = Char.ofNat 9
    · subst h4
      rw [show jsonEscapeChar (Char.ofNat 9) = ['\\', 't'] from rfl]
      simp only [List.cons_append, List.nil_append]
      rw [parseStringBody.eq_def]
      simp [escDecode, ih]
    by_cases h5 : c = Char.ofNat 10
    · subst h5
      rw [show jsonEscapeChar (Char.ofNat 10) = ['\\', 'n'] from rfl]
      simp only [List.cons_append, List.nil_append]
      rw [parseStringBody.eq_def]
      simp [escDecode, ih]
    by_cases h6 : c = Char.ofNat 12
    · subst h6
      rw [show jsonEscapeChar (Char.ofNat 12) = ['\\', 'f'] from rfl]
      simp only [List.cons_append, List.nil_append]
      rw [parseStringBody.eq_def]
      simp [escDecode, ih]
    by_cases h7 : c = Char.ofNat 13
    · subst h7
      rw [show jsonEscapeChar (Char.ofNat 13) = ['\\', 'r'] from rfl]
      simp only [List.cons_append, List.nil_append]
      rw [parseStringBody.eq_def]
      simp [escDecode, ih]
    by_cases h8 : c.toNat < 32
    · have hesc : jsonEscapeChar c =
          ['\\', 'u', '0', '0', hexDigitChar (c.toNat / 16), hexDigitChar (c.toNat % 16)] := by
        simp [jsonEscapeChar, h1, h2, h3, h4, h5, h6, h7, h8]
      have e0 : hexVal '0' = some 0 := by decide
      have e1 : hexVal (hexDigitChar (c.toNat / 16)) = some (c.toNat / 16) :=
        hexVal_hexDigitChar _ (by omega)
      have e2 : hexVal (hexDigitChar (c.toNat % 16)) = some (c.toNat % 16) :=
        hexVal_hexDigitChar _ (by omega)
      have e3 : 16 * (c.toNat / 16) + c.toNat % 16 = c.toNat := by omega
      have h55 : c.toNat < 55296 := by omega
      rw [hesc]
      simp only [List.cons_append, List.nil_append]
      rw [parseStringBody.eq_def]
      simp [e0, e1, e2, e3, h55, charOfNat_toNat, ih]
    · have hesc : jsonEscapeChar c = [c] := by
        simp [jsonEscapeChar, h1, h2, h3, h4, h5, h6, h7, h8]
      rw [hesc]
      simp only [List.cons_append, List.nil_append]
      rw [parseStringBody.eq_def]
      simp [h1, h2, h5, h7, ih]

theorem parseStringLit_jsonQuote (s rest : List Char) :
    parseStringLit (jsonQuote s ++ rest) = some (s, rest) := by
  have h : jsonQuote s ++ rest = '"' :: (s.flatMap jsonEscapeChar ++ '"' :: rest) := by
    simp [jsonQuote]
  rw [h]
  simpa [parseStringLit] using parseBody_escape s rest

/-- C1: for every input text — quotes, backslashes, newlines and
script-like content included — the routine `injectMessage` builds
embeds the text purely as data: parsing the routine against the fixed
template skeleton succeeds for every text and recovers the original
text unchanged at all four embedding sites, so no input can alter the
routine's parse structure or escape its data context. -/
theorem injectRoutine_roundtrip (text : List Char) :
    parseInjectRoutine (buildInjectExpression text) = some (text, text, text, text) := by
  have h4 : dropExact exprPart4.data exprPart4.data = some [] := by
    simpa using dropExact_append exprPart4.data []
  simp [buildInjectExpression, parseInjectRoutine, List.append_assoc,
    dropExact_append, parseStringLit_jsonQuote, h4]

/-! # C2: discovery picks by candidate order, not completion order -/

/-- C2 counterexample: ports 9000 and 9001 both probe successfully and
port 9001's probe completes first, yet discovery returns port 9000's
address — the winner is decided by candidate order, not completion
order. -/
theorem discoverCDP_completion_order_counterexample :
    discoverCDPModel twoSuccessProbe =
      .ok ⟨9000, "ws://127.0.0.1:9000/devtools/page/A"⟩ ∧
    firstByCompletion twoSuccessProbe slowFirstLatency =
      some ⟨9001, "ws://127.0.0.1:9001/devtools/page/B"⟩ ∧
    (⟨9000, "ws://127.0.0.1:9000/devtools/page/A"⟩ : CDPInfo) ≠
      ⟨9001, "ws://127.0.0.1:9001/devtools/page/B"⟩ :=
  ⟨by rfl, by rfl, by decide⟩

/-- C2 (amended): discovery returns the first successful probe in
candidate-port order — independent of any completion latencies, since
all probes are awaited (`Promise.all`) before the order-based scan; in
particular when exactly one port succeeds its address is returned, and
when none succeeds discovery fails with the endpoint-not-found
error. -/
theorem discoverCDP_candidate_order :
    (∀ (probe : Nat → ProbeOutcome) (p : Nat) (info : CDPInfo),
        p ∈ PORTS → probePort p (probe p) = some info →
        (∀ q ∈ PORTS, q < p → probePort q (probe q) = none) →
        discoverCDPModel probe = .ok info) ∧
    (∀ probe : Nat → ProbeOutcome,
        (∀ q ∈ PORTS, probePort q (probe q) = none) →
        discoverCDPModel probe =
          .error "CDP not found. Is Antigravity started with --remote-debugging-port=9000?") := by
  constructor
  · intro probe p info hp hsucc hearlier
    have hP : p = 9000 ∨ p = 9001 ∨ p = 9002 ∨ p = 9003 := by simpa [PORTS] using hp
    rcases hP with h | h | h | h <;> subst h
    · simp [discoverCDPModel, PORTS, List.findSome?, hsucc]
    · have e0 := hearlier 9000 (by simp [PORTS]) (by omega)
      simp [discoverCDPModel, PORTS, List.findSome?, hsucc, e0]
    · have e0 := hearlier 9000 (by simp [PORTS]) (by omega)
      have e1 := hearlier 9001 (by simp [PORTS]) (by omega)
      simp [discoverCDPModel, PORTS, List.findSome?, hsucc, e0, e1]
    · have e0 := hearlier 9000 (by simp [PORTS]) (by omega)
      have e1 := hearlier 9001 (by simp [PORTS]) (by omega)
      have e2 := hearlier 9002 (by simp [PORTS]) (by omega)
      simp [discoverCDPModel, PORTS, List.findSome?, hsucc, e0, e1, e2]
  · intro probe h
    have e0 := h 9000 (by simp [PORTS])
    have e1 := h 9001 (by simp [PORTS])
    have e2 := h 9002 (by simp [PORTS])
    have e3 := h 9003 (by simp [PORTS])
    simp [discoverCDPModel, PORTS, List.findSome?, e0, e1, e2, e3]

/-- C2 witness: a concrete single-success run through the amended
theorem. -/
theorem discoverCDP_candidate_order_witness :
    9001 ∈ PORTS ∧
    discoverCDPModel
        (fun p => if p = 9001 then ProbeOutcome.listing [targetB] else ProbeOutcome.failure) =
      .ok ⟨9001, "ws://127.0.0.1:9001/devtools/page/B"⟩ :=
  ⟨by decide, discoverCDP_candidate_order.1
    (fun p => if p = 9001 then ProbeOutcome.listing [targetB] else ProbeOutcome.failure)
    9001 ⟨9001, "ws://127.0.0.1:9001/devtools/page/B"⟩
    (by decide) (by rfl) (by decide)⟩

/-! # C3: the change detector decides by fingerprint, and fingerprints
can collide on differing markup -/

theorem big_cast_zero : (4294967296 : ZMod 4294967296) = 0 := by
  have h := ZMod.natCast_self 4294967296
  exact_mod_cast h

theorem int32_cast (x : ℤ) :
    ((int32 x : ℤ) : ZMod 4294967296) = (x : ZMod 4294967296) := by
  have h : int32 x = x - 4294967296 * ((x + 2147483648) / 4294967296) := by
    simp only [int32, Int.emod_def]
    ring
  rw [h]
  push_cast
  rw [big_cast_zero]
  ring

theorem hashStep_cast (h : ℤ) (c : ℕ) :
    ((hashStep h c : ℤ) : ZMod 4294967296) = polyStep (h : ZMod 4294967296) c := by
  simp only [hashStep, polyStep]
  rw [int32_cast]
  push_cast
  rw [int32_cast]
  push_cast
  ring

theorem hashFold_cast (codes : List ℕ) :
    ∀ h : ℤ, ((codes.foldl hashStep h : ℤ) : ZMod 4294967296) =
      codes.foldl polyStep ((h : ℤ) : ZMod 4294967296) := by
  induction codes with
  | nil => intro h; rfl
  | cons c cs ih =>
    intro h
    simp only [List.foldl_cons]
    rw [ih, hashStep_cast]

theorem polyFold_affine (codes : List ℕ) :
    ∀ x : ZMod 4294967296,
      codes.foldl polyStep x = 31 ^ codes.length * x + codes.foldl polyStep 0 := by
  induction codes with
  | nil => intro x; simp
  | cons c cs ih =>
    intro x
    simp only [List.foldl_cons, List.length_cons]
    rw [ih (polyStep x c), ih (polyStep 0 c)]
    simp only [polyStep]
    ring

theorem unit31 : IsUnit (31 : ZMod 4294967296) := by
  have h : Nat.Coprime 31 4294967296 := by decide
  have h2 := (ZMod.isUnit_iff_coprime 31 4294967296).mpr h
  exact_mod_cast h2

theorem hash_substitution_ne (a b : List ℕ) (c c' : ℕ)
    (hc : c < 65536) (hc' : c' < 65536) (hne : c ≠ c') :
    hashInt (a ++ c :: b) ≠ hashInt (a ++ c' :: b) := by
  intro heq
  apply hne
  have hcast : ((hashInt (a ++ c :: b) : ℤ) : ZMod 4294967296) =
      ((hashInt (a ++ c' :: b) : ℤ) : ZMod 4294967296) := by rw [heq]
  rw [hashInt, hashInt, hashFold_cast, hashFold_cast] at hcast
  rw [List.foldl_append, List.foldl_append] at hcast
  simp only [List.foldl_cons] at hcast
  rw [polyFold_affine (b) (polyStep _ c), polyFold_affine (b) (polyStep _ c')] at hcast
  have hstep : polyStep (List.foldl polyStep ((0 : ℤ) : ZMod 4294967296) a) c =
      polyStep (List.foldl polyStep ((0 : ℤ) : ZMod 4294967296) a) c' :=
    (unit31.pow b.length).mul_left_cancel (by
      have h2 := add_right_cancel hcast
      exact h2)
  have hcc : ((c : ℕ) : ZMod 4294967296) = ((c' : ℕ) : ZMod 4294967296) := by
    simp only [polyStep] at hstep
    exact add_left_cancel hstep
  have hv := congrArg ZMod.val hcc
  rwa [ZMod.val_natCast_of_lt (by omega), ZMod.val_natCast_of_lt (by omega)] at hv

theorem utf16Codes_lt (s : String) : ∀ x ∈ utf16Codes s, x < 65536 := by
  intro x hx
  simp only [utf16Codes, List.mem_flatMap] at hx
  obtain ⟨c, _, hc⟩ := hx
  have hval : c.toNat < 1114112 := by
    rcases c.valid with h | h
    · exact Nat.lt_trans h (by norm_num)
    · exact h.2
  revert hc
  unfold utf16Char
  by_cases hb : c.toNat < 65536
  · simp only [hb, if_pos]
    intro hc
    simp only [List.mem_singleton] at hc
    omega
  · simp only [hb, if_neg, Bool.false_eq_true, not_false_iff]
    intro hc
    simp only [List.mem_cons, List.mem_singleton] at hc
    have h1 : (c.toNat - 65536) / 1024 < 1024 := by omega
    have h2 : (c.toNat - 65536) % 1024 < 1024 := Nat.mod_lt _ (by omega)
    rcases hc with h | h | h
    · omega
    · omega
    · cases h

theorem ofDigits36_snoc (xs : List Char) (c : Char) :
    ofDigits36 (xs ++ [c]) = 36 * ofDigits36 xs + digitVal36 c := by
  simp [ofDigits36, List.foldl_append]

theorem ofDigits36_toDigits36 (n : ℕ) : ofDigits36 (toDigits36 n) = n := by
  induction n using Nat.strong_induction_on with
  | _ n ih =>
    rw [toDigits36]
    by_cases h : n < 36
    · simp [h, ofDigits36, digitVal36_digitChar36 n h]
    · simp only [h, dite_false]
      rw [ofDigits36_snoc, ih (n / 36) (Nat.div_lt_self (by omega) (by omega)),
        digitVal36_digitChar36 (n % 36) (Nat.mod_lt _ (by omega))]
      omega

theorem toDigits36_inj {m n : ℕ} (h : toDigits36 m = toDigits36 n) : m = n := by
  rw [← ofDigits36_toDigits36 m, h, ofDigits36_toDigits36]

theorem mem_toDigits36 (n : ℕ) : ∀ c ∈ toDigits36 n, ∃ k, k < 36 ∧ c = digitChar36 k := by
  induction n using Nat.strong_induction_on with
  | _ n ih =>
    rw [toDigits36]
    by_cases h : n < 36
    · simp only [h, dite_true]
      intro c hc
      simp only [List.mem_singleton] at hc
      exact ⟨n, h, hc⟩
    · simp only [h, dite_false]
      intro c hc
      rcases List.mem_append.mp hc with h2 | h2
      · exact ih (n / 36) (Nat.div_lt_self (by omega) (by omega)) c h2
      · simp only [List.mem_singleton] at h2
        exact ⟨n % 36, Nat.mod_lt _ (by omega), h2⟩

theorem dash_not_mem_toDigits36 (n : ℕ) : '-' ∉ toDigits36 n := by
  intro h
  obtain ⟨k, hk, hc⟩ := mem_toDigits36 n '-' h
  revert hc
  revert hk
  revert k
  decide

theorem toBase36_inj {i j : ℤ} (h : toBase36 i = toBase36 j) : i = j := by
  unfold toBase36 at h
  split_ifs at h with hi hj hj
  · injection h with h1 h2
    have h3 := toDigits36_inj h2
    omega
  · exact absurd (h ▸ List.mem_cons_self '-' _) (dash_not_mem_toDigits36 _)
  · exact absurd (h.symm ▸ List.mem_cons_self '-' _) (dash_not_mem_toDigits36 _)
  · have h2 := toDigits36_inj h
    omega

theorem hashString_ne {s1 s2 : String}
    (h : hashInt (utf16Codes s1) ≠ hashInt (utf16Codes s2)) :
    hashString s1 ≠ hashString s2 := by
  intro he
  apply h
  apply toBase36_inj
  have hd := congrArg String.data he
  simpa [hashString] using hd

theorem updateSnapshot_accept_eq (st : ServerState) (s : Snapshot)
    (herr : strTruthy s.error = false) :
    updateSnapshotModel st (some s) =
      if some (hashString s.html) = st.lastSnapshotHash then ⟨st, [], false⟩
      else ⟨⟨some s, some (hashString s.html)⟩, [s], true⟩ := by
  by_cases hc : some (hashString s.html) = st.lastSnapshotHash
  · simp [updateSnapshotModel, herr, hc]
  · simp [updateSnapshotModel, herr, hc]

theorem snapshotHash_after_accept (st : ServerState) (s : Snapshot)
    (h : strTruthy s.error = false) :
    (updateSnapshotModel st (some s)).state.lastSnapshotHash = some (hashString s.html) := by
  rw [updateSnapshot_accept_eq st s h]
  by_cases hc : some (hashString s.html) = st.lastSnapshotHash
  · simp [hc]
  · simp [hc]

/-- C3 counterexample: the two markups `collisionHtml1` and
`collisionHtml2` are different strings of length one — they differ in a
single character — yet the second capture triggers no publish, because
the two markups' fingerprints collide (the hash is a 32-bit
polynomial, not injective). -/
theorem updateSnapshot_one_char_collision :
    collisionSnap1.html ≠ collisionSnap2.html ∧
    collisionSnap1.html.length = 1 ∧ collisionSnap2.html.length = 1 ∧
    (updateSnapshotModel ⟨none, none⟩ (some collisionSnap1)).changed = true ∧
    (secondCycle ⟨none, none⟩ collisionSnap1 collisionSnap2).broadcasts = [] ∧
    (secondCycle ⟨none, none⟩ collisionSnap1 collisionSnap2).changed = false := by
  have hint : hashInt (utf16Codes collisionHtml2) = hashInt (utf16Codes collisionHtml1) := by
    decide
  have hstr : hashString collisionHtml2 = hashString collisionHtml1 := by
    unfold hashString
    rw [hint]
  have hh := snapshotHash_after_accept ⟨none, none⟩ collisionSnap1 rfl
  refine ⟨by decide, by decide, by decide, ?_, ?_, ?_⟩
  · rw [updateSnapshot_accept_eq _ collisionSnap1 rfl]
    simp
  · unfold secondCycle
    rw [updateSnapshot_accept_eq _ collisionSnap2 rfl, hh]
    simp [collisionSnap1, collisionSnap2, hstr]
  · unfold secondCycle
    rw [updateSnapshot_accept_eq _ collisionSnap2 rfl, hh]
    simp [collisionSnap1, collisionSnap2, hstr]

/-- C3 (amended): after an accepted capture `s1`, a second accepted
capture `s2` with identical markup never publishes; in general the
second capture publishes exactly when the fingerprint of the new
markup differs from the stored fingerprint — markup that differs but
collides in fingerprint does not publish — and a markup differing by a
substitution at a single code-unit position always has a different
fingerprint and hence always triggers exactly one publish. -/
theorem updateSnapshot_fingerprint_decision (st : ServerState) (s1 s2 : Snapshot)
    (h1 : strTruthy s1.error = false) (h2 : strTruthy s2.error = false) :
    (s1.html = s2.html →
      (secondCycle st s1 s2).broadcasts = [] ∧ (secondCycle st s1 s2).changed = false) ∧
    ((secondCycle st s1 s2).changed = true ↔ hashString s2.html ≠ hashString s1.html) ∧
    (∀ a b c c', utf16Codes s1.html = a ++ c :: b → utf16Codes s2.html = a ++ c' :: b →
      c ≠ c' →
      (secondCycle st s1 s2).broadcasts = [s2] ∧ (secondCycle st s1 s2).changed = true) := by
  have hh : (updateSnapshotModel st (some s1)).state.lastSnapshotHash =
      some (hashString s1.html) := snapshotHash_after_accept st s1 h1
  have hmain : ∀ _ : hashString s2.html ≠ hashString s1.html,
      (secondCycle st s1 s2).broadcasts = [s2] ∧ (secondCycle st s1 s2).changed = true := by
    intro hne
    unfold secondCycle
    rw [updateSnapshot_accept_eq _ s2 h2, hh]
    simp [hne]
  have hsame : ∀ _ : hashString s2.html = hashString s1.html,
      (secondCycle st s1 s2).broadcasts = [] ∧ (secondCycle st s1 s2).changed = false := by
    intro heq
    unfold secondCycle
    rw [updateSnapshot_accept_eq _ s2 h2, hh, heq]
    simp
  refine ⟨?_, ?_, ?_⟩
  · intro hhtml
    exact hsame (by rw [hhtml])
  · constructor
    · intro hch
      by_cases hcc : hashString s2.html = hashString s1.html
      · exact absurd hch (by simp [(hsame hcc).2])
      · exact hcc
    · intro hne
      exact (hmain hne).2
  · intro a b c c' hd1 hd2 hcc
    have hc : c < 65536 := utf16Codes_lt s1.html c (by rw [hd1]; simp)
    have hc' : c' < 65536 := utf16Codes_lt s2.html c' (by rw [hd2]; simp)
    have hne : hashString s2.html ≠ hashString s1.html := by
      apply hashString_ne
      rw [hd1, hd2]
      exact hash_substitution_ne a b c' c hc' hc (Ne.symm hcc)
    exact hmain hne

/-- C3 witness: a concrete identical-markup pair of cycles through the
amended theorem. -/
theorem updateSnapshot_fingerprint_decision_witness :
    strTruthy validSnap.error = false ∧
    (secondCycle ⟨none, none⟩ validSnap validSnap).broadcasts = [] ∧
    (secondCycle ⟨none, none⟩ validSnap validSnap).changed = false :=
  ⟨rfl, (updateSnapshot_fingerprint_decision ⟨none, none⟩ validSnap validSnap rfl rfl).1 rfl⟩

/-! # C8: rejected captures leave the cache untouched and publish nothing -/

/-- C8: a polling cycle whose capture yields no snapshot or an
error-flagged result changes neither the cached snapshot nor the
stored fingerprint and broadcasts nothing, so the previously cached
snapshot remains what the on-demand read returns and what a new
subscriber receives as replay. -/
theorem updateSnapshot_rejects_keep_cache (st : ServerState) (captured : Option Snapshot)
    (h : captured = none ∨ ∃ s, captured = some s ∧ strTruthy s.error = true) :
    updateSnapshotModel st captured = ⟨st, [], false⟩ ∧
    snapshotRoute (updateSnapshotModel st captured).state = snapshotRoute st ∧
    wsReplay (updateSnapshotModel st captured).state = wsReplay st := by
  have hm : updateSnapshotModel st captured = ⟨st, [], false⟩ := by
    rcases h with h | ⟨s, hs, he⟩
    · subst h
      rfl
    · subst hs
      simp [updateSnapshotModel, he]
  rw [hm]
  exact ⟨rfl, rfl, rfl⟩

/-- C8 witness: a no-snapshot cycle on a populated cache through the
theorem. -/
theorem updateSnapshot_rejects_keep_cache_witness :
    updateSnapshotModel ⟨some validSnap, some "h"⟩ none =
      ⟨⟨some validSnap, some "h"⟩, [], false⟩ :=
  (updateSnapshot_rejects_keep_cache ⟨some validSnap, some "h"⟩ none (Or.inl rfl)).1

/-! # C4: the correlator settles each call exactly once, by its own id -/

theorem frameEvent_callId (i : Nat) (f : CDPFrame) : (frameEvent i f).callId = i := by
  cases hfe : f.error <;> simp [frameEvent, hfe, CorrEvent.callId]

theorem corrRun_cons (st : CorrState) (op : CorrOp) (ops : List CorrOp) :
    corrRun st (op :: ops) =
      ((corrRun (corrStep st op).1 ops).1,
        (corrStep st op).2 ++ (corrRun (corrStep st op).1 ops).2) := rfl

theorem corrRun_append (st : CorrState) (a b : List CorrOp) :
    corrRun st (a ++ b) =
      ((corrRun (corrRun st a).1 b).1,
        (corrRun st a).2 ++ (corrRun (corrRun st a).1 b).2) := by
  induction a generalizing st with
  | nil => simp [corrRun]
  | cons op a ih =>
    rw [List.cons_append, corrRun_cons, corrRun_cons, ih]
    simp [List.append_assoc]

theorem corrRun_props (ops : List CorrOp) :
    ∀ st : CorrState, corrInv st →
      corrInv (corrRun st ops).1 ∧
      (∀ j ∈ (corrRun st ops).1.pending, j ∈ st.pending ∨ st.idCounter ≤ j) ∧
      (((corrRun st ops).2.map CorrEvent.callId).Nodup) ∧
      (∀ e ∈ (corrRun st ops).2, e.callId ∈ st.pending ∨ st.idCounter ≤ e.callId) ∧
      (∀ e ∈ (corrRun st ops).2, e.callId ∉ (corrRun st ops).1.pending) ∧
      (∀ e ∈ (corrRun st ops).2, ∃ f, CorrOp.frame f ∈ ops ∧
        f.id = some e.callId ∧ e = frameEvent e.callId f) := by
  induction ops with
  | nil =>
    intro st hst
    refine ⟨hst, fun j hj => Or.inl hj, ?_, ?_, ?_, ?_⟩ <;> simp [corrRun]
  | cons op ops ih =>
    intro st hst
    obtain ⟨hnd, hbound⟩ := hst
    cases op with
    | call =>
      have hst' : corrInv ⟨st.idCounter + 1, st.pending ++ [st.idCounter]⟩ := by
        constructor
        · show (st.pending ++ [st.idCounter]).Nodup
          rw [List.nodup_append]
          refine ⟨hnd, List.nodup_singleton _, ?_⟩
          intro a ha hmem
          simp only [List.mem_singleton] at hmem
          subst hmem
          exact absurd (hbound _ ha) (by omega)
        · show ∀ i ∈ st.pending ++ [st.idCounter], i < st.idCounter + 1
          intro i hi
          rcases List.mem_append.mp hi with h | h
          · exact Nat.lt_trans (hbound i h) (by omega)
          · simp only [List.mem_singleton] at h
            omega
      obtain ⟨ih1, ih2, ih3, ih4, ih5, ih6⟩ := ih _ hst'
      rw [corrRun_cons]
      simp only [corrStep, List.nil_append]
      refine ⟨ih1, ?_, ih3, ?_, ih5, ?_⟩
      · intro j hj
        rcases ih2 j hj with h | h
        · rcases List.mem_append.mp h with h2 | h2
          · exact Or.inl h2
          · simp only [List.mem_singleton] at h2
            omega
        · have h2 : st.idCounter + 1 ≤ j := h
          omega
      · intro e he
        rcases ih4 e he with h | h
        · rcases List.mem_append.mp h with h2 | h2
          · exact Or.inl h2
          · simp only [List.mem_singleton] at h2
            omega
        · have h2 : st.idCounter + 1 ≤ e.callId := h
          omega
      · intro e he
        obtain ⟨f, hf, hfid, hfe⟩ := ih6 e he
        exact ⟨f, List.mem_cons_of_mem _ hf, hfid, hfe⟩
    | frame f =>
      cases hid : f.id with
      | none =>
        obtain ⟨ih1, ih2, ih3, ih4, ih5, ih6⟩ := ih st ⟨hnd, hbound⟩
        rw [corrRun_cons]
        simp only [corrStep, hid, List.nil_append]
        refine ⟨ih1, ih2, ih3, ih4, ih5, ?_⟩
        intro e he
        obtain ⟨g, hg, hgid, hge⟩ := ih6 e he
        exact ⟨g, List.mem_cons_of_mem _ hg, hgid, hge⟩
      | some i =>
        by_cases hmem : i ∈ st.pending
        · have hst' : corrInv ⟨st.idCounter, st.pending.erase i⟩ := by
            refine ⟨hnd.erase i, ?_⟩
            intro j hj
            exact hbound j (List.mem_of_mem_erase hj)
          obtain ⟨ih1, ih2, ih3, ih4, ih5, ih6⟩ := ih _ hst'
          rw [corrRun_cons]
          simp only [corrStep, hid, hmem, if_pos, List.singleton_append]
          have hiner : i ∉ st.pending.erase i := hnd.not_mem_erase
          have hibnd : i < st.idCounter := hbound i hmem
          have hnoti : ∀ e ∈ (corrRun ⟨st.idCounter, st.pending.erase i⟩ ops).2,
              e.callId ≠ i := by
            intro e he hcontra
            rcases ih4 e he with h | h
            · rw [hcontra] at h
              exact hiner h
            · rw [hcontra] at h
              have h2 : st.idCounter ≤ i := h
              omega
          refine ⟨ih1, ?_, ?_, ?_, ?_, ?_⟩
          · intro j hj
            rcases ih2 j hj with h | h
            · exact Or.inl (List.mem_of_mem_erase h)
            · exact Or.inr h
          · rw [List.map_cons, List.nodup_cons]
            refine ⟨?_, ih3⟩
            rw [frameEvent_callId]
            intro hcon
            obtain ⟨e, he, heid⟩ := List.mem_map.mp hcon
            exact hnoti e he heid
          · intro e he
            rcases List.mem_cons.mp he with h | h
            · subst h
              rw [frameEvent_callId]
              exact Or.inl hmem
            · rcases ih4 e h with h2 | h2
              · exact Or.inl (List.mem_of_mem_erase h2)
              · exact Or.inr h2
          · intro e he
            rcases List.mem_cons.mp he with h | h
            · subst h
              rw [frameEvent_callId]
              intro hcon
              rcases ih2 i hcon with h2 | h2
              · exact hiner h2
              · have h3 : st.idCounter ≤ i := h2
                omega
            · exact ih5 e h
          · intro e he
            rcases List.mem_cons.mp he with h | h
            · subst h
              refine ⟨f, List.mem_cons_self _ _, ?_, ?_⟩
              · rw [frameEvent_callId, hid]
              · rw [frameEvent_callId]
            · obtain ⟨g, hg, hgid, hge⟩ := ih6 e h
              exact ⟨g, List.mem_cons_of_mem _ hg, hgid, hge⟩
        · obtain ⟨ih1, ih2, ih3, ih4, ih5, ih6⟩ := ih st ⟨hnd, hbound⟩
          rw [corrRun_cons]
          simp only [corrStep, hid, hmem, if_neg, List.nil_append, not_false_iff]
          refine ⟨ih1, ih2, ih3, ih4, ih5, ?_⟩
          intro e he
          obtain ⟨g, hg, hgid, hge⟩ := ih6 e he
          exact ⟨g, List.mem_cons_of_mem _ hg, hgid, hge⟩

theorem corrInv_init : corrInv initCorrState := by
  constructor
  · exact List.nodup_nil
  · intro i hi
    cases hi

/-- C4: over any sequence of call dispatches and incoming frames, the
settlements the correlator produces carry pairwise distinct call ids
(no call is ever settled twice); every settlement stems from a frame
whose id field equals that call's own id, and carries that frame's
payload; a frame with no id or an id matching no pending call settles
nothing and changes nothing; and a frame whose id matches a pending
call settles exactly that call, exactly once, for the rest of the
run. -/
theorem correlator_resolution_unique :
    (∀ ops : List CorrOp,
        (((corrRun initCorrState ops).2.map CorrEvent.callId).Nodup) ∧
        (∀ e ∈ (corrRun initCorrState ops).2,
          ∃ f, CorrOp.frame f ∈ ops ∧ f.id = some e.callId ∧ e = frameEvent e.callId f)) ∧
    (∀ (st : CorrState) (f : CDPFrame), f.id = none → corrStep st (.frame f) = (st, [])) ∧
    (∀ (st : CorrState) (f : CDPFrame) (i : Nat), f.id = some i → i ∉ st.pending →
        corrStep st (.frame f) = (st, [])) ∧
    (∀ (ops1 : List CorrOp) (f : CDPFrame) (i : Nat) (ops2 : List CorrOp),
        f.id = some i → i ∈ (corrRun initCorrState ops1).1.pending →
        ((corrRun initCorrState (ops1 ++ CorrOp.frame f :: ops2)).2.filter
            (fun e => e.callId = i)) = [frameEvent i f]) := by
  refine ⟨?_, ?_, ?_, ?_⟩
  · intro ops
    obtain ⟨_, _, h3, _, _, h6⟩ := corrRun_props ops initCorrState corrInv_init
    exact ⟨h3, h6⟩
  · intro st f hid
    simp [corrStep, hid]
  · intro st f i hid hmem
    simp [corrStep, hid, hmem]
  · intro ops1 f i ops2 hid hpend
    obtain ⟨hinv1, _, _, _, hnot1, _⟩ := corrRun_props ops1 initCorrState corrInv_init
    obtain ⟨hnd1, hbnd1⟩ := hinv1
    rw [corrRun_append, corrRun_cons]
    simp only [corrStep, hid, hpend, if_pos, List.singleton_append]
    set st1 := (corrRun initCorrState ops1).1 with hst1
    have hst2 : corrInv ⟨st1.idCounter, st1.pending.erase i⟩ := by
      refine ⟨hnd1.erase i, ?_⟩
      intro j hj
      exact hbnd1 j (List.mem_of_mem_erase hj)
    obtain ⟨_, _, _, h24, _, _⟩ := corrRun_props ops2 _ hst2
    rw [List.filter_append]
    have hfil1 : (corrRun initCorrState ops1).2.filter (fun e => e.callId = i) = [] := by
      rw [List.filter_eq_nil_iff]
      intro e he
      simp only [decide_eq_true_eq]
      intro hcon
      exact hnot1 e he (hcon ▸ hpend)
    have hfil2 : (corrRun ⟨st1.idCounter, st1.pending.erase i⟩ ops2).2.filter
        (fun e => e.callId = i) = [] := by
      rw [List.filter_eq_nil_iff]
      intro e he
      simp only [decide_eq_true_eq]
      intro hcon
      rcases h24 e he with h | h
      · rw [hcon] at h
        exact hnd1.not_mem_erase h
      · rw [hcon] at h
        have h2 : st1.idCounter ≤ i := h
        exact absurd (hbnd1 i hpend) (by omega)
    rw [hfil1, List.filter_cons]
    simp [frameEvent_callId, hfil2]

/-- C4 witness: one call, then a frame bearing its id, run through the
exactly-once clause of the theorem. -/
theorem correlator_resolution_unique_witness :
    1 ∈ (corrRun initCorrState [CorrOp.call]).1.pending ∧
    ((corrRun initCorrState
        ([CorrOp.call] ++ CorrOp.frame ⟨some 1, none, some ⟨some ⟨some 7⟩⟩⟩ :: [])).2.filter
      (fun e => e.callId = 1)) = [frameEvent 1 ⟨some 1, none, some ⟨some ⟨some 7⟩⟩⟩] :=
  ⟨by decide, correlator_resolution_unique.2.2.2 [CorrOp.call]
    ⟨some 1, none, some ⟨some ⟨some 7⟩⟩⟩ 1 [] rfl (by decide)⟩

/-! # C5: the capture loop accepts the first usable context result -/

theorem captureModel_eq_spec (convert : String → String) (outs : List EvalOutcome) :
    captureSnapshotModel convert outs =
      (firstAcceptedSnapshot outs).map (convertFields convert) := by
  induction outs with
  | nil => rfl
  | cons o rest ih =>
    cases o with
    | throws =>
      simpa [captureSnapshotModel, firstAcceptedSnapshot, List.findSome?_cons] using ih
    | value v =>
      cases v with
      | none =>
        simpa [captureSnapshotModel, firstAcceptedSnapshot, List.findSome?_cons] using ih
      | some s =>
        by_cases he : strTruthy s.error = true
        · simpa [captureSnapshotModel, firstAcceptedSnapshot, List.findSome?_cons, he]
            using ih
        · simp [captureSnapshotModel, firstAcceptedSnapshot, List.findSome?_cons, he]

/-- C5 counterexample: a context result whose `error` field is present
but empty is not skipped — it is returned as the snapshot, and a later
valid context is never tried — although the claim says a result
carrying an `error` field is skipped and the first object without an
`error` field is returned. -/
theorem captureSnapshot_empty_error_accepted :
    captureSnapshotModel id
        [EvalOutcome.value (some emptyErrorSnap), EvalOutcome.value (some validSnap)] =
      some emptyErrorSnap ∧
    emptyErrorSnap.error ≠ none ∧ emptyErrorSnap ≠ validSnap := by
  refine ⟨?_, by decide, by decide⟩
  rfl

/-- C5 (amended): the capture loop, visiting contexts in insertion
order, skips a context whose call throws, returns no value, or returns
a snapshot whose `error` field is truthy (present and non-empty);
it returns the first remaining result, with its resource references
rewritten, and later contexts are not tried; when every context is
skipped it returns no snapshot; in particular over three contexts that
throw, return `error: "x"`, and return a valid snapshot, it returns
the third context's snapshot. -/
theorem captureSnapshot_first_acceptance :
    (∀ (convert : String → String) (outs : List EvalOutcome),
        captureSnapshotModel convert outs =
          (firstAcceptedSnapshot outs).map (convertFields convert)) ∧
    (∀ (convert : String → String) (outs : List EvalOutcome),
        (∀ o ∈ outs, skipOutcome o) → captureSnapshotModel convert outs = none) ∧
    captureSnapshotModel id
        [EvalOutcome.throws, EvalOutcome.value (some errXSnap),
          EvalOutcome.value (some validSnap)] = some validSnap := by
  refine ⟨captureModel_eq_spec, ?_, by rfl⟩
  intro convert outs h
  rw [captureModel_eq_spec]
  have hnone : firstAcceptedSnapshot outs = none := by
    apply List.findSome?_eq_none_iff.mpr
    intro o ho
    rcases h o ho with h1 | h1 | ⟨s, h1, h2⟩
    · subst h1
      rfl
    · subst h1
      rfl
    · subst h1
      simp [h2]
  rw [hnone]
  rfl

/-- C5 witness: an all-skipped registry through the amended theorem. -/
theorem captureSnapshot_first_acceptance_witness :
    skipOutcome EvalOutcome.throws ∧
    captureSnapshotModel id [EvalOutcome.throws] = none :=
  ⟨Or.inl rfl, captureSnapshot_first_acceptance.2.1 id [EvalOutcome.throws]
    (by intro o ho; simp only [List.mem_singleton] at ho; subst ho; exact Or.inl rfl)⟩

/-! # C6: the injection loop's result value -/

theorem injectLoop_eq_spec (outs : List InjOutcome) :
    ∀ last, injectLoopModel last outs =
      match firstOkInject outs with
      | some r => r
      | none => (lastObservedInject outs).getD last := by
  induction outs with
  | nil => intro last; rfl
  | cons o rest ih =>
    intro last
    cases o with
    | throws =>
      have hlast : lastObservedInject (InjOutcome.throws :: rest) =
          lastObservedInject rest := by
        simp [lastObservedInject, List.findSome?_append]
      have hfo : firstOkInject (InjOutcome.throws :: rest) = firstOkInject rest := by
        simp [firstOkInject, List.findSome?_cons]
      rw [show injectLoopModel last (InjOutcome.throws :: rest) =
          injectLoopModel last rest from rfl, ih last, hfo, hlast]
    | value v =>
      cases v with
      | none =>
        have hlast : lastObservedInject (InjOutcome.value none :: rest) =
            lastObservedInject rest := by
          simp [lastObservedInject, List.findSome?_append]
        have hfo : firstOkInject (InjOutcome.value none :: rest) =
            firstOkInject rest := by
          simp [firstOkInject, List.findSome?_cons]
        rw [show injectLoopModel last (InjOutcome.value none :: rest) =
            injectLoopModel last rest from rfl, ih last, hfo, hlast]
      | some r =>
        by_cases hok : r.ok
        · have hfo : firstOkInject (InjOutcome.value (some r) :: rest) = some r := by
            simp [firstOkInject, List.findSome?_cons, hok]
          rw [show injectLoopModel last (InjOutcome.value (some r) :: rest) =
              if r.ok then r else injectLoopModel r rest from rfl, if_pos hok, hfo]
        · have hlast : lastObservedInject (InjOutcome.value (some r) :: rest) =
              (lastObservedInject rest).or (some r) := by
            simp [lastObservedInject, List.findSome?_append]
          have hfo : firstOkInject (InjOutcome.value (some r) :: rest) =
              firstOkInject rest := by
            simp [firstOkInject, List.findSome?_cons, hok]
          rw [show injectLoopModel last (InjOutcome.value (some r) :: rest) =
              if r.ok then r else injectLoopModel r rest from rfl, if_neg hok,
            ih r, hfo, hlast]
          cases hfo2 : firstOkInject rest
          · cases hlo : lastObservedInject rest <;> simp [Option.or]
          · simp

theorem allThrows_firstOk {outs : List InjOutcome}
    (h : ∀ o ∈ outs, o = InjOutcome.throws) : firstOkInject outs = none := by
  apply List.findSome?_eq_none_iff.mpr
  intro o ho
  rw [h o ho]

theorem allThrows_lastObserved {outs : List InjOutcome}
    (h : ∀ o ∈ outs, o = InjOutcome.throws) : lastObservedInject outs = none := by
  apply List.findSome?_eq_none_iff.mpr
  intro o ho
  rw [h o (List.mem_reverse.mp ho)]

/-- C6: for every outcome sequence, `injectMessage` returns exactly
the value the spec describes — the first result with `ok: true`
(carrying its tags) if any context succeeds, otherwise the last
observed non-success result, otherwise the default no-context result —
and in particular an empty registry, or one where every call threw,
yields the default result; the model is a total function, reflecting
that the loop represents every outcome as a result value and never
raises. -/
theorem injectMessage_result_characterization :
    (∀ outs : List InjOutcome, injectMessageModel outs = specInjectResult outs) ∧
    (∀ outs : List InjOutcome, (outs = [] ∨ ∀ o ∈ outs, o = InjOutcome.throws) →
        injectMessageModel outs = defaultInjectResult) := by
  have hmain : ∀ outs, injectMessageModel outs = specInjectResult outs := by
    intro outs
    rw [injectMessageModel, injectLoop_eq_spec outs defaultInjectResult, specInjectResult]
  refine ⟨hmain, ?_⟩
  intro outs h
  have hfo : firstOkInject outs = none := by
    rcases h with h | h
    · subst h; rfl
    · exact allThrows_firstOk h
  have hlo : lastObservedInject outs = none := by
    rcases h with h | h
    · subst h; rfl
    · exact allThrows_lastObserved h
  rw [hmain outs, specInjectResult, hfo, hlo]
  rfl

/-- C6 witness: an all-throwing registry through the theorem. -/
theorem injectMessage_result_characterization_witness :
    injectMessageModel [InjOutcome.throws] = defaultInjectResult :=
  injectMessage_result_characterization.2 [InjOutcome.throws]
    (Or.inr (by intro o ho; simpa using ho))

/-! # C9: the context registry is an append-only list, with possible
duplicate ids -/

theorem processIncoming_eq (init : List CDPContext) (msgs : List WsIncoming) :
    processIncoming init msgs = init ++ createdContexts msgs := by
  induction msgs generalizing init with
  | nil => simp [processIncoming, createdContexts]
  | cons m rest ih =>
    cases m with
    | malformed =>
      simpa [processIncoming, createdContexts, List.filterMap_cons,
        handleContextEvent] using ih init
    | message method params =>
      by_cases hm : method = some "Runtime.executionContextCreated"
      · cases params with
        | none =>
          simpa [processIncoming, createdContexts, List.filterMap_cons,
            handleContextEvent, hm] using ih init
        | some p =>
          have h2 := ih (init ++ [p.context])
          simp only [processIncoming, List.foldl_cons, handleContextEvent, hm,
            if_pos] at h2 ⊢
          rw [h2]
          simp [createdContexts, List.filterMap_cons, hm]
      · cases params with
        | none =>
          simpa [processIncoming, createdContexts, List.filterMap_cons,
            handleContextEvent, hm] using ih init
        | some p =>
          simpa [processIncoming, createdContexts, List.filterMap_cons,
            handleContextEvent, hm] using ih init

/-- C9 counterexample: two context-created events announcing the same
context id leave the registry with two entries bearing id 1 — the
registry is a plain array with `push`, not a set keyed by id. -/
theorem contextRegistry_duplicate_id :
    processIncoming [] [dupContextMsg, dupContextMsg] =
      [⟨1, none, none⟩, ⟨1, none, none⟩] ∧
    ¬ ((processIncoming [] [dupContextMsg, dupContextMsg]).map CDPContext.id).Nodup := by
  refine ⟨by rfl, by decide⟩

/-- C9 (amended): the registry is append-only — processing any frame
sequence yields exactly the old registry followed by the announced
contexts in arrival order, so no operation ever removes an entry —
and it holds at most one entry per context id exactly when the
announced events carry pairwise distinct ids. -/
theorem contextRegistry_append_only :
    (∀ (init : List CDPContext) (msgs : List WsIncoming),
        processIncoming init msgs = init ++ createdContexts msgs) ∧
    (∀ msgs : List WsIncoming,
        ((createdContexts msgs).map CDPContext.id).Nodup →
        ((processIncoming [] msgs).map CDPContext.id).Nodup) := by
  refine ⟨processIncoming_eq, ?_⟩
  intro msgs h
  rw [processIncoming_eq]
  simpa using h

/-- C9 witness: a single announcement through the theorem. -/
theorem contextRegistry_append_only_witness :
    ((createdContexts [dupContextMsg]).map CDPContext.id).Nodup ∧
    ((processIncoming [] [dupContextMsg]).map CDPContext.id).Nodup :=
  ⟨by decide, contextRegistry_append_only.2 [dupContextMsg] (by decide)⟩

/-! # C7: invalid tokens are rejected before any handler logic -/

/-- C7: a subscription request whose token query parameter is missing
or differs from the access token is closed immediately with status
1008 `Unauthorized` and no snapshot data is ever sent; and a request
to the on-demand read (`/snapshot`) or the injection trigger (`/send`)
without the exact bearer token in the authorization header and without
the token query parameter receives the explicit 401 rejection from the
middleware, for every possible cache state and injection outcome — so
Capture and Injection are never reached. -/
theorem auth_rejects_invalid_token :
    (∀ (token : String) (st : ServerState) (qt : Option String),
        qt ≠ some token →
        wsConnectionModel token st qt = WsOutcome.closed 1008 "Unauthorized") ∧
    (∀ (token : String) (st : ServerState) (connected : Bool) (outs : List InjOutcome)
        (r : HttpRequest) (body : Option String),
        (r.path = "/snapshot" ∨ r.path = "/send") →
        r.authorization ≠ some ("Bearer " ++ token) →
        r.queryToken ≠ some token →
        handleRequest token st connected outs r body = HttpResponse.unauthorized) := by
  constructor
  · intro token st qt h
    simp [wsConnectionModel, h]
  · intro token st connected outs r body hpath hauth hq
    have hstat : staticBypass r.path = false := by
      rcases hpath with h | h <;> rw [h] <;> decide
    simp [handleRequest, authMiddleware, hstat, hauth, hq]

/-- C7 witness: a token-less subscription and a token-less `/send`
request through the theorem. -/
theorem auth_rejects_invalid_token_witness :
    wsConnectionModel "tok" ⟨some validSnap, some "h"⟩ none =
      WsOutcome.closed 1008 "Unauthorized" ∧
    handleRequest "tok" ⟨some validSnap, some "h"⟩ true []
        ⟨"/send", none, none⟩ (some "hello") = HttpResponse.unauthorized :=
  ⟨auth_rejects_invalid_token.1 "tok" ⟨some validSnap, some "h"⟩ none (by simp),
    auth_rejects_invalid_token.2 "tok" ⟨some validSnap, some "h"⟩ true []
      ⟨"/send", none, none⟩ (some "hello") (Or.inr rfl) (by simp) (by simp)⟩

/-! # C10: an absent or empty message is rejected with 400 -/

/-- C10: a request to the injection trigger whose `message` field is
absent or the empty string is answered with the 400 `Message required`
rejection — regardless of the connection state and of any injection
outcomes, so the Injection Engine is never invoked — both at the
handler itself and through the authenticated request pipeline. -/
theorem sendEndpoint_empty_message_rejected :
    (∀ (connected : Bool) (outs : List InjOutcome) (message : Option String),
        (message = none ∨ message = some "") →
        sendRoute connected outs message = HttpResponse.badRequest "Message required") ∧
    (∀ (token : String) (st : ServerState) (connected : Bool) (outs : List InjOutcome)
        (qt : Option String) (message : Option String),
        (message = none ∨ message = some "") →
        handleRequest token st connected outs
            ⟨"/send", some ("Bearer " ++ token), qt⟩ message =
          HttpResponse.badRequest "Message required") := by
  have hroute : ∀ (connected : Bool) (outs : List InjOutcome) (message : Option String),
      (message = none ∨ message = some "") →
      sendRoute connected outs message = HttpResponse.badRequest "Message required" := by
    intro connected outs message h
    have h0 : strTruthy (some "") = false := by decide
    rcases h with h | h <;> subst h
    · simp [sendRoute, strTruthy]
    · simp [sendRoute, h0]
  refine ⟨hroute, ?_⟩
  intro token st connected outs qt message h
  have hstat : staticBypass "/send" = false := by decide
  have hsnap : ("/send" : String) ≠ "/snapshot" := by decide
  simp [handleRequest, authMiddleware, hstat, hsnap, hroute connected outs message h]

/-- C10 witness: an absent message through the theorem. -/
theorem sendEndpoint_empty_message_rejected_witness :
    sendRoute true [] none = HttpResponse.badRequest "Message required" :=
  sendEndpoint_empty_message_rejected.1 true [] none (Or.inl rfl)
